import Mathlib

/-!
Verification of the dAIgnostics clinical data portal (a React + Amplify
application).  The TypeScript source is shallowly embedded into Lean:
pure client-side logic (CSV parsing, list filtering, role resolution,
password generation, numeric sanitisation) becomes executable Lean
functions over `List Char` strings and rationals, stateful serverless
handlers become explicit state-passing functions, and the managed data
store is modelled as an in-memory list of records with the field-filter
list semantics described in the spec.
-/

set_option maxHeartbeats 1000000
set_option maxRecDepth 10000

namespace Daignostics

/-- JavaScript strings are modelled as lists of characters. -/
abbrev Str := List Char

/-- Convert a Lean string literal into the character-list model. -/
def lit (s : String) : Str := s.toList

/-- ASCII whitespace, the (restricted) model of the character class that
JavaScript's `String.prototype.trim` removes. -/
def isJsSpace (c : Char) : Bool :=
  c = ' ' || c = '\t' || c = '\n' || c = '\r' || c = '\x0b' || c = '\x0c'

/-- Model of JavaScript `str.split(sep)` for a single-character separator:
splitting the empty string yields `[""]`, and separators at the ends
produce empty fields, exactly as in JS. -/
def jsSplit (sep : Char) : Str → List Str
  | [] => [[]]
  | c :: cs =>
    match jsSplit sep cs with
    | [] => [[c]]
    | cur :: rest => if c = sep then [] :: cur :: rest else (c :: cur) :: rest

/-- Model of JavaScript `str.trim()`. -/
def jsTrim (s : Str) : Str :=
  ((s.dropWhile isJsSpace).reverse.dropWhile isJsSpace).reverse

/-- Model of `text.replace(/^﻿/, '')`: strip one leading byte-order
mark if present (CSVUpload.tsx line 20 / the spectral revision line 48). -/
def jsStripBOM (s : Str) : Str :=
  match s with
  | [] => []
  | c :: cs => if c = Char.ofNat 0xFEFF then cs else c :: cs

/-- `const lines = cleanText.trim().split('\n')` (CSVUpload.tsx line 21). -/
def csvLines (text : Str) : List Str :=
  jsSplit '\n' (jsTrim (jsStripBOM text))

/-- `lines[0].split(',').map(h => h.trim())` (CSVUpload.tsx line 28). -/
def csvHeaders (text : Str) : List Str :=
  (jsSplit ',' ((csvLines text).getD 0 [])).map jsTrim

/-- `lines[1].split(',').map(v => v.trim())` (CSVUpload.tsx line 29). -/
def csvValues (text : Str) : List Str :=
  (jsSplit ',' ((csvLines text).getD 1 [])).map jsTrim

/-- A demo numeric parser (sign, digits, optional fraction) used to
instantiate the abstract `parseFloat` model on concrete inputs. -/
def digitsVal (ds : Str) : Nat :=
  ds.foldl (fun acc d => acc * 10 + (d.toNat - 48)) 0

/-- Demo instantiation of JavaScript `parseFloat` on plain decimal
strings; `none` models `NaN`. -/
def pfDemo (s : Str) : Option ℚ :=
  let (neg, t) :=
    match s with
    | '-' :: r => (true, r)
    | _ => (false, s)
  let intPart := t.takeWhile Char.isDigit
  let rest := t.dropWhile Char.isDigit
  if intPart.isEmpty then none
  else
    let base : ℚ :=
      match rest with
      | [] => (digitsVal intPart : ℚ)
      | '.' :: fr =>
        if fr.all Char.isDigit then
          (digitsVal intPart : ℚ) + (digitsVal fr : ℚ) / ((10 : ℚ) ^ fr.length)
        else 0
      | _ => 0
    let ok : Bool :=
      match rest with
      | [] => true
      | '.' :: fr => fr.all Char.isDigit
      | _ => false
    if ok then some (if neg then -base else base) else none

/-! ## CSV parsing (CSVUpload.tsx, both revisions) -/

/-- Field values of the record built by `parseCSV`: the date string is
kept verbatim, numeric fields hold the parsed number. -/
inductive FieldVal where
  | fstr (s : Str)
  | fnum (q : ℚ)
deriving DecidableEq

/-- JavaScript object assignment `obj[k] = v` on the assoc-list model of
an object: overwrite an existing key in place, otherwise append. -/
def setEntry {α : Type} : List (Str × α) → Str → α → List (Str × α)
  | [], k, v => [(k, v)]
  | (k2, v2) :: rest, k, v =>
    if k2 = k then (k, v) :: rest else (k2, v2) :: setEntry rest k v

/-- JavaScript property read `obj[k]` on the assoc-list model. -/
def lookupEntry {α : Type} : List (Str × α) → Str → Option α
  | [], _ => none
  | (k2, v2) :: rest, k => if k2 = k then some v2 else lookupEntry rest k

/-- The eight numeric headers recognised by `parseCSV` in
CSVUpload.tsx (line 47). -/
def numericHeaders8 : List Str :=
  [lit "peakCounts", lit "amplitude", lit "auc", lit "fwhm",
   lit "frequency", lit "snr", lit "skewness", lit "kurtosis"]

/-- The count-mismatch error of CSVUpload.tsx line 32. -/
def mismatchMsg (h v : Nat) : String :=
  s!"Header count ({h}) does not match value count ({v})"

/-- The header/value loop of CSVUpload.tsx lines 39-54, parametrised by
the `parseFloat` model `pf` (`none` models `NaN`).  Returns the record
under construction together with the `hasValidField` flag. -/
def buildRecord8 (pf : Str → Option ℚ) :
    List (Str × Str) → List (Str × FieldVal) → Bool →
    List (Str × FieldVal) × Bool
  | [], acc, hv => (acc, hv)
  | (h, v) :: rest, acc, hv =>
    if h = lit "generationDate" then
      buildRecord8 pf rest (setEntry acc h (.fstr v)) true
    else if h ∈ numericHeaders8 then
      match pf v with
      | some q => buildRecord8 pf rest (setEntry acc h (.fnum q)) true
      | none => buildRecord8 pf rest acc hv
    else
      buildRecord8 pf rest acc hv

/-- `parseCSV` of CSVUpload.tsx lines 18-62 (eight-metric revision).
The result pairs the returned value (`none` models `return null`) with
the error message passed to `setError`, if any.  The function is total,
modelling that the parser never throws. -/
def parseCSV8 (pf : Str → Option ℚ) (patientId : Str) (text : Str) :
    Option (List (Str × FieldVal)) × Option String :=
  if (csvLines text).length < 2 then
    (none, some "CSV must have at least 2 rows (header and data)")
  else
    let headers := csvHeaders text
    let values := csvValues text
    if headers.length ≠ values.length then
      (none, some (mismatchMsg headers.length values.length))
    else
      let built := buildRecord8 pf (headers.zip values)
        [(lit "patientId", .fstr patientId)] false
      if built.2 then (some built.1, none)
      else (none, some "No valid fields found in CSV. Check headers.")

/-- The 39 expected spectral feature names of the spectral revision
(src/unnamed/part_002 lines 8-18). -/
def spectralFeatures : List Str :=
  [lit "ch0_total_power", lit "ch0_peak_freq", lit "ch0_peak_power",
   lit "ch0_centroid", lit "ch0_bandwidth", lit "ch0_rolloff95",
   lit "ch0_flatness", lit "ch0_entropy", lit "ch0_slope",
   lit "ch0_bp_uSlow", lit "ch0_bp_slow", lit "ch0_bp_mid",
   lit "ch0_bp_fast",
   lit "ch1_total_power", lit "ch1_peak_freq", lit "ch1_peak_power",
   lit "ch1_centroid", lit "ch1_bandwidth", lit "ch1_rolloff95",
   lit "ch1_flatness", lit "ch1_entropy", lit "ch1_slope",
   lit "ch1_bp_uSlow", lit "ch1_bp_slow", lit "ch1_bp_mid",
   lit "ch1_bp_fast",
   lit "ch2_total_power", lit "ch2_peak_freq", lit "ch2_peak_power",
   lit "ch2_centroid", lit "ch2_bandwidth", lit "ch2_rolloff95",
   lit "ch2_flatness", lit "ch2_entropy", lit "ch2_slope",
   lit "ch2_bp_uSlow", lit "ch2_bp_slow", lit "ch2_bp_mid",
   lit "ch2_bp_fast"]

/-- The header loop of the spectral `parseCSV` (src/unnamed/part_002
lines 62-77): one value is consumed per header index (a missing value,
`values[i] === undefined`, makes `parseFloat` return `NaN` and the
feature is skipped); the `y` label column is skipped; recognised
spectral features with parsable values are stored and counted. -/
def buildRecord39 (pf : Str → Option ℚ) :
    List Str → List Str → List (Str × ℚ) → Nat → List (Str × ℚ) × Nat
  | [], _, acc, n => (acc, n)
  | h :: hs, vs, acc, n =>
    if h = lit "y" then buildRecord39 pf hs vs.tail acc n
    else if h ∈ spectralFeatures then
      match vs.head? with
      | some v =>
        match pf v with
        | some q => buildRecord39 pf hs vs.tail (setEntry acc h q) (n + 1)
        | none => buildRecord39 pf hs vs.tail acc n
      | none => buildRecord39 pf hs vs.tail acc n
    else
      buildRecord39 pf hs vs.tail acc n

/-- `parseCSV` of the spectral revision (src/unnamed/part_002 lines
46-86).  Note: unlike the eight-metric revision, it performs no
header/value count comparison; it rejects only when fewer than 10
recognised spectral features parse. -/
def parseCSV39 (pf : Str → Option ℚ) (text : Str) :
    Option (List (Str × ℚ)) × Option String :=
  if (csvLines text).length < 2 then
    (none, some "CSV must have at least 2 rows (header and data)")
  else
    let built := buildRecord39 pf (csvHeaders text) (csvValues text) [] 0
    if built.2 < 10 then
      (none, some s!"Only found {built.2} spectral features. Expected 39 features.")
    else
      (some built.1, none)

/-- A header/value pair that sets `hasValidField` in the eight-metric
parser: either the `generationDate` column, or a recognised numeric
column whose value parses as a number. -/
def validField8 (pf : Str → Option ℚ) (h v : Str) : Bool :=
  if h = lit "generationDate" then true
  else if h ∈ numericHeaders8 then (pf v).isSome
  else false

lemma lookup_setEntry_self {α : Type} (r : List (Str × α)) (k : Str) (v : α) :
    lookupEntry (setEntry r k v) k = some v := by
  induction r with
  | nil => simp [setEntry, lookupEntry]
  | cons p rest ih =>
    obtain ⟨k2, v2⟩ := p
    by_cases hk : k2 = k
    · simp [setEntry, hk, lookupEntry]
    · simp [setEntry, hk, lookupEntry, ih]

lemma lookup_setEntry_ne {α : Type} {k2 k : Str} (r : List (Str × α)) (v : α)
    (hne : k2 ≠ k) : lookupEntry (setEntry r k2 v) k = lookupEntry r k := by
  induction r with
  | nil => simp [setEntry, lookupEntry, hne]
  | cons p rest ih =>
    obtain ⟨k3, v3⟩ := p
    by_cases hk : k3 = k2
    · subst hk
      simp [setEntry, lookupEntry, hne]
    · simp only [setEntry, if_neg hk]
      by_cases hk3 : k3 = k
      · simp [lookupEntry, hk3]
      · simp [lookupEntry, hk3, ih]

/-- Headers absent from the remaining pairs are left untouched by the
record-building loop. -/
lemma buildRecord8_lookup_not_mem (pf : Str → Option ℚ) :
    ∀ (pairs : List (Str × Str)) (acc : List (Str × FieldVal)) (hv : Bool)
      (k : Str), (∀ p ∈ pairs, p.1 ≠ k) →
      lookupEntry (buildRecord8 pf pairs acc hv).1 k = lookupEntry acc k := by
  intro pairs
  induction pairs with
  | nil => intro acc hv k _; rfl
  | cons p rest ih =>
    intro acc hv k hk
    obtain ⟨h, v⟩ := p
    have hhk : h ≠ k := hk (h, v) (List.mem_cons_self _ _)
    have hrest : ∀ p ∈ rest, p.1 ≠ k := fun p hp => hk p (List.mem_cons_of_mem _ hp)
    by_cases hgd : h = lit "generationDate"
    · simp only [buildRecord8, if_pos hgd]
      rw [ih _ _ _ hrest, lookup_setEntry_ne _ _ hhk]
    · by_cases hnum : h ∈ numericHeaders8
      · simp only [buildRecord8, if_neg hgd, if_pos hnum]
        cases hpf : pf v with
        | some q =>
          simp only [hpf]
          rw [ih _ _ _ hrest, lookup_setEntry_ne _ _ hhk]
        | none => simp only [hpf]; exact ih _ _ _ hrest
      · simp only [buildRecord8, if_neg hgd, if_neg hnum]
        exact ih _ _ _ hrest

/-- The eight numeric headers are all distinct from `generationDate`. -/
lemma mem_numericHeaders8_ne_gd :
    ∀ k ∈ numericHeaders8, k ≠ lit "generationDate" := by decide

/-- A recognised numeric header whose value parses is mapped to the
parsed number by the record-building loop (headers assumed distinct). -/
lemma buildRecord8_lookup_num (pf : Str → Option ℚ) :
    ∀ (pairs : List (Str × Str)) (i : Nat) (acc : List (Str × FieldVal))
      (hv : Bool) (k v : Str) (q : ℚ),
      pairs.get? i = some (k, v) → (pairs.map Prod.fst).Nodup →
      k ∈ numericHeaders8 → pf v = some q →
      lookupEntry (buildRecord8 pf pairs acc hv).1 k = some (.fnum q) := by
  intro pairs
  induction pairs with
  | nil => intro i acc hv k v q hget; simp [List.get?] at hget
  | cons p rest ih =>
    intro i acc hv k v q hget hnd hnum hpf
    obtain ⟨h, w⟩ := p
    rw [List.map_cons, List.nodup_cons] at hnd
    cases i with
    | zero =>
      simp only [List.get?, Option.some.injEq, Prod.mk.injEq] at hget
      obtain ⟨hk, hw⟩ := hget
      subst hk; subst hw
      have hgd : h ≠ lit "generationDate" := mem_numericHeaders8_ne_gd _ hnum
      simp only [buildRecord8, if_neg hgd, if_pos hnum, hpf]
      have hnotin : ∀ p ∈ rest, p.1 ≠ h := by
        intro p hp hcontra
        apply hnd.1
        exact List.mem_map.mpr ⟨p, hp, hcontra⟩
      rw [buildRecord8_lookup_not_mem pf rest _ _ _ hnotin,
        lookup_setEntry_self]
    | succ i =>
      simp only [List.get?] at hget
      by_cases hgd : h = lit "generationDate"
      · simp only [buildRecord8, if_pos hgd]
        exact ih i _ _ _ _ _ hget hnd.2 hnum hpf
      · by_cases hmem : h ∈ numericHeaders8
        · simp only [buildRecord8, if_neg hgd, if_pos hmem]
          cases hpw : pf w with
          | some q2 => simp only [hpw]; exact ih i _ _ _ _ _ hget hnd.2 hnum hpf
          | none => simp only [hpw]; exact ih i _ _ _ _ _ hget hnd.2 hnum hpf
        · simp only [buildRecord8, if_neg hgd, if_neg hmem]
          exact ih i _ _ _ _ _ hget hnd.2 hnum hpf

/-- The `generationDate` column is mapped to its value string verbatim
by the record-building loop (headers assumed distinct). -/
lemma buildRecord8_lookup_gd (pf : Str → Option ℚ) :
    ∀ (pairs : List (Str × Str)) (i : Nat) (acc : List (Str × FieldVal))
      (hv : Bool) (v : Str),
      pairs.get? i = some (lit "generationDate", v) →
      (pairs.map Prod.fst).Nodup →
      lookupEntry (buildRecord8 pf pairs acc hv).1 (lit "generationDate") =
        some (.fstr v) := by
  intro pairs
  induction pairs with
  | nil => intro i acc hv v hget; simp [List.get?] at hget
  | cons p rest ih =>
    intro i acc hv v hget hnd
    obtain ⟨h, w⟩ := p
    rw [List.map_cons, List.nodup_cons] at hnd
    cases i with
    | zero =>
      simp only [List.get?, Option.some.injEq, Prod.mk.injEq] at hget
      obtain ⟨hk, hw⟩ := hget
      subst hw
      simp only [buildRecord8, if_pos hk]
      have hnotin : ∀ p ∈ rest, p.1 ≠ h := by
        intro p hp hcontra
        apply hnd.1
        exact List.mem_map.mpr ⟨p, hp, hcontra⟩
      rw [hk] at hnotin ⊢
      rw [buildRecord8_lookup_not_mem pf rest _ _ _ hnotin,
        lookup_setEntry_self]
    | succ i =>
      simp only [List.get?] at hget
      by_cases hgd : h = lit "generationDate"
      · simp only [buildRecord8, if_pos hgd]
        exact ih i _ _ _ hget hnd.2
      · by_cases hmem : h ∈ numericHeaders8
        · simp only [buildRecord8, if_neg hgd, if_pos hmem]
          cases hpw : pf w with
          | some q2 => simp only [hpw]; exact ih i _ _ _ hget hnd.2
          | none => simp only [hpw]; exact ih i _ _ _ hget hnd.2
        · simp only [buildRecord8, if_neg hgd, if_neg hmem]
          exact ih i _ _ _ hget hnd.2

/-- The `hasValidField` flag produced by the loop is exactly "some
header/value pair is a valid field". -/
lemma buildRecord8_snd (pf : Str → Option ℚ) :
    ∀ (pairs : List (Str × Str)) (acc : List (Str × FieldVal)) (hv : Bool),
      (buildRecord8 pf pairs acc hv).2 =
        (hv || pairs.any fun p => validField8 pf p.1 p.2) := by
  intro pairs
  induction pairs with
  | nil => intro acc hv; simp [buildRecord8]
  | cons p rest ih =>
    intro acc hv
    obtain ⟨h, v⟩ := p
    by_cases hgd : h = lit "generationDate"
    · have hval : validField8 pf h v = true := by simp [validField8, hgd]
      simp only [buildRecord8, if_pos hgd, ih, List.any_cons, hval]
      simp
    · by_cases hnum : h ∈ numericHeaders8
      · cases hpf : pf v with
        | some q =>
          have hval : validField8 pf h v = true := by
            simp [validField8, hgd, hnum, hpf]
          simp only [buildRecord8, if_neg hgd, if_pos hnum, hpf, ih,
            List.any_cons, hval]
          simp
        | none =>
          have hval : validField8 pf h v = false := by
            simp [validField8, hgd, hnum, hpf]
          simp only [buildRecord8, if_neg hgd, if_pos hnum, hpf, ih,
            List.any_cons, hval]
          simp
      · have hval : validField8 pf h v = false := by
          simp [validField8, hgd, hnum]
        simp only [buildRecord8, if_neg hgd, if_neg hnum, ih,
          List.any_cons, hval]
        simp

/-- Componentwise indexing into a zipped list. -/
lemma get?_zip_of_get? {α β : Type} :
    ∀ (l₁ : List α) (l₂ : List β) (i : Nat) (a : α) (b : β),
      l₁.get? i = some a → l₂.get? i = some b →
      (l₁.zip l₂).get? i = some (a, b) := by
  intro l₁
  induction l₁ with
  | nil => intro l₂ i a b h1; simp [List.get?] at h1
  | cons x xs ih =>
    intro l₂ i a b h1 h2
    cases l₂ with
    | nil => simp [List.get?] at h2
    | cons y ys =>
      cases i with
      | zero =>
        simp only [List.get?, Option.some.injEq] at h1 h2
        subst h1; subst h2
        simp [List.zip_cons_cons, List.get?]
      | succ i =>
        simp only [List.get?] at h1 h2
        simpa [List.zip_cons_cons, List.get?] using ih ys i a b h1 h2

/-- A two-line CSV whose headers/value counts match but in which no
header is recognised by the eight-metric parser. -/
def csvNoFields : Str := lit "foo,bar\n1,2"

/-- A two-line CSV with two headers and three values. -/
def csvMismatch8 : Str := lit "a,b\n1,2,3"

/-- A two-line CSV with ten spectral-feature headers and eleven values:
a header/value count mismatch that the spectral parser accepts. -/
def csvMismatch39 : Str :=
  lit "ch0_total_power,ch0_peak_freq,ch0_peak_power,ch0_centroid,ch0_bandwidth,ch0_rolloff95,ch0_flatness,ch0_entropy,ch0_slope,ch0_bp_uSlow\n1,1,1,1,1,1,1,1,1,1,1"

/-- A well-formed two-line CSV with one recognised numeric column and a
`generationDate` column. -/
def csvDemo8 : Str := lit "amplitude,generationDate\n1.5,2024-01-01"

/-- C1 (amended): for every well-formed two-line CSV — header and value
line, comma-separated, equal counts, pairwise-distinct headers — that
contains at least one valid field (a `generationDate` column or a
recognised numeric column whose value parses as a number), `parseCSV`
of CSVUpload.tsx returns a non-null record in which every recognised
numeric header whose value parses as a number is mapped to the parsed
value, and the `generationDate` field is mapped to its value string
unchanged; no error is set. -/
theorem parseCSV8_wellformed_record (pf : Str → Option ℚ) (pid text : Str)
    (hlines : 2 ≤ (csvLines text).length)
    (hlen : (csvHeaders text).length = (csvValues text).length)
    (hnd : (csvHeaders text).Nodup)
    (hvalid : ∃ i h v, (csvHeaders text).get? i = some h ∧
      (csvValues text).get? i = some v ∧ validField8 pf h v = true) :
    ∃ r, parseCSV8 pf pid text = (some r, none) ∧
      (∀ i h v q, (csvHeaders text).get? i = some h →
        (csvValues text).get? i = some v → h ∈ numericHeaders8 →
        pf v = some q → lookupEntry r h = some (.fnum q)) ∧
      (∀ i v, (csvHeaders text).get? i = some (lit "generationDate") →
        (csvValues text).get? i = some v →
        lookupEntry r (lit "generationDate") = some (.fstr v)) := by
  have hmapfst : ((csvHeaders text).zip (csvValues text)).map Prod.fst =
      csvHeaders text := List.map_fst_zip _ _ (le_of_eq hlen)
  have hndp : (((csvHeaders text).zip (csvValues text)).map Prod.fst).Nodup :=
    hmapfst.symm ▸ hnd
  have hany : (((csvHeaders text).zip (csvValues text)).any
      fun p => validField8 pf p.1 p.2) = true := by
    obtain ⟨i, h, v, hh, hv, hval⟩ := hvalid
    exact List.any_eq_true.mpr
      ⟨(h, v), List.get?_mem (get?_zip_of_get? _ _ i h v hh hv), hval⟩
  have hsnd : (buildRecord8 pf ((csvHeaders text).zip (csvValues text))
      [(lit "patientId", .fstr pid)] false).2 = true := by
    rw [buildRecord8_snd]
    simp [hany]
  have h1 : ¬ ((csvLines text).length < 2) := by omega
  refine ⟨(buildRecord8 pf ((csvHeaders text).zip (csvValues text))
    [(lit "patientId", .fstr pid)] false).1, ?_, ?_, ?_⟩
  · simp only [parseCSV8, if_neg h1, if_neg (not_ne_iff.mpr hlen)]
    rw [if_pos hsnd]
  · intro i h v q hh hv hnum hpf
    exact buildRecord8_lookup_num pf _ i _ _ h v q
      (get?_zip_of_get? _ _ i h v hh hv) hndp hnum hpf
  · intro i v hh hv
    exact buildRecord8_lookup_gd pf _ i _ _ v
      (get?_zip_of_get? _ _ i _ v hh hv) hndp

/-- Witness for C1: the amended theorem applied to a concrete CSV. -/
theorem parseCSV8_wellformed_record_witness :
    ∃ r, parseCSV8 pfDemo (lit "p1") csvDemo8 = (some r, none) ∧
      (∀ i h v q, (csvHeaders csvDemo8).get? i = some h →
        (csvValues csvDemo8).get? i = some v → h ∈ numericHeaders8 →
        pfDemo v = some q → lookupEntry r h = some (.fnum q)) ∧
      (∀ i v, (csvHeaders csvDemo8).get? i = some (lit "generationDate") →
        (csvValues csvDemo8).get? i = some v →
        lookupEntry r (lit "generationDate") = some (.fstr v)) :=
  parseCSV8_wellformed_record pfDemo (lit "p1") csvDemo8 (by decide)
    (by decide) (by decide)
    ⟨0, lit "amplitude", lit "1.5", by decide, by decide, by decide⟩

/-- C1 counterexample: `"foo,bar\n1,2"` is a well-formed two-line CSV
with matching header/value counts (2 = 2), yet `parseCSV` returns null
(with the "No valid fields" error), refuting the claim that every such
CSV yields a non-null record. -/
theorem parseCSV8_null_on_wellformed_cex :
    (csvLines csvNoFields).length = 2 ∧
    (csvHeaders csvNoFields).length = (csvValues csvNoFields).length ∧
    (parseCSV8 pfDemo (lit "p1") csvNoFields).1 = none ∧
    (parseCSV8 pfDemo (lit "p1") csvNoFields).2 =
      some "No valid fields found in CSV. Check headers." := by decide

/-- C2 (amended): the eight-metric `parseCSV` of CSVUpload.tsx rejects
every CSV whose header and value rows split into different counts,
returning null and setting the descriptive count-mismatch error (and,
being a total function, never throwing); the 39-feature spectral
`parseCSV` performs no such count comparison — on a concrete CSV with
ten headers and eleven values it returns a non-null record with no
error. -/
theorem parseCSV_mismatch_behaviour :
    (∀ (pf : Str → Option ℚ) (pid text : Str),
      2 ≤ (csvLines text).length →
      (csvHeaders text).length ≠ (csvValues text).length →
      parseCSV8 pf pid text =
        (none, some (mismatchMsg (csvHeaders text).length
          (csvValues text).length))) ∧
    ((csvHeaders csvMismatch39).length ≠ (csvValues csvMismatch39).length ∧
     (parseCSV39 pfDemo csvMismatch39).1.isSome = true ∧
     (parseCSV39 pfDemo csvMismatch39).2 = none) := by
  constructor
  · intro pf pid text h2 hne
    have h1 : ¬ ((csvLines text).length < 2) := by omega
    simp only [parseCSV8, if_neg h1, if_pos hne]
  · exact ⟨by decide, by decide, by decide⟩

/-- Witness for C2: the mismatch rejection evaluated on a concrete
two-header, three-value CSV. -/
theorem parseCSV_mismatch_behaviour_witness :
    parseCSV8 pfDemo (lit "p1") csvMismatch8 =
      (none, some (mismatchMsg 2 3)) :=
  parseCSV_mismatch_behaviour.1 pfDemo (lit "p1") csvMismatch8
    (by decide) (by decide)

/-- C2 counterexample: the spectral-revision parser accepts a CSV whose
header row has 10 fields and value row has 11 — it returns a non-null
record and sets no error, refuting the claim that both revisions reject
on count mismatch. -/
theorem parseCSV39_mismatch_cex :
    (csvHeaders csvMismatch39).length = 10 ∧
    (csvValues csvMismatch39).length = 11 ∧
    (parseCSV39 pfDemo csvMismatch39).1.isSome = true ∧
    (parseCSV39 pfDemo csvMismatch39).2 = none := by decide

/-! ## Patient list filtering (PatientList.tsx lines 76-149) -/

/-- Calendar dates; JavaScript `Date` values are modelled by their
year/month/day components (month difference arithmetic is unchanged by
JS's 0-based months). -/
structure SimpleDate where
  year : Int
  month : Nat
  day : Nat
deriving DecidableEq

/-- The `Patient` interface of PatientList.tsx (the fields the
filter/sort logic reads); `dateOfBirth` strings are modelled as parsed
structured dates and missing optional fields as `none`. -/
structure PatientL where
  id : Str
  firstName : Str
  lastName : Str
  doctor : Str
  dateOfBirth : Option SimpleDate
  gender : Option Str
deriving DecidableEq

/-- `calculateAge` of PatientList.tsx lines 76-86: year difference,
decremented when the birthday has not yet occurred this year;
`none` models the `null` returned for a missing date of birth. -/
def calculateAge (today : SimpleDate) (dob : Option SimpleDate) : Option Int :=
  match dob with
  | none => none
  | some birth =>
    let age := today.year - birth.year
    let monthDiff : Int := (today.month : Int) - (birth.month : Int)
    if monthDiff < 0 ∨ (monthDiff = 0 ∧ today.day < birth.day) then
      some (age - 1)
    else
      some age

/-- ASCII model of JavaScript `toLowerCase()`. -/
def jsToLower (s : Str) : Str :=
  s.map fun c => if 'A' ≤ c ∧ c ≤ 'Z' then Char.ofNat (c.toNat + 32) else c

/-- Model of JavaScript `String.prototype.includes`. -/
def jsIncludes (s sub : Str) : Bool := decide (sub <:+: s)

/-- The search predicate of PatientList.tsx lines 95-100 (argument is
the already-lowercased query). -/
def searchMatches (q : Str) (p : PatientL) : Bool :=
  jsIncludes (jsToLower p.firstName) q ||
  jsIncludes (jsToLower p.lastName) q ||
  jsIncludes (jsToLower (p.firstName ++ [' '] ++ p.lastName)) q ||
  jsIncludes (jsToLower p.id) q

/-- The min-age predicate of PatientList.tsx lines 110-113:
`age !== null && age >= parseInt(minAge)`. -/
def minAgeCheck (today : SimpleDate) (m : Int) (p : PatientL) : Bool :=
  match calculateAge today p.dateOfBirth with
  | some a => m ≤ a
  | none => false

/-- The max-age predicate of PatientList.tsx lines 116-119:
`age !== null && age <= parseInt(maxAge)`. -/
def maxAgeCheck (today : SimpleDate) (m : Int) (p : PatientL) : Bool :=
  match calculateAge today p.dateOfBirth with
  | some a => a ≤ m
  | none => false

/-- The filter pipeline of `filteredPatients` (PatientList.tsx lines
89-121): search filter, gender filter, then min/max age filters.  The
empty filter input strings are modelled as `none` (the code only
applies a filter when the string is non-empty) and `parseInt` of a set
filter as the integer it denotes.  The subsequent sort (lines 123-146)
only permutes the result and is not part of the membership claim. -/
def filterPatients (searchQuery : Str) (genderFilter : Str)
    (minAge maxAge : Option Int) (today : SimpleDate)
    (patients : List PatientL) : List PatientL :=
  let result := patients
  let result :=
    if (jsTrim searchQuery).isEmpty then result
    else result.filter (searchMatches (jsToLower searchQuery))
  let result :=
    if genderFilter = lit "all" then result
    else result.filter fun p => p.gender = some genderFilter
  let result :=
    match minAge with
    | none => result
    | some m => result.filter (minAgeCheck today m)
  let result :=
    match maxAge with
    | none => result
    | some m => result.filter (maxAgeCheck today m)
  result

/-- The claim's inclusive age-range condition: each bound that is set
requires the computed age to exist and respect it. -/
def withinAge (today : SimpleDate) (minAge maxAge : Option Int)
    (dob : Option SimpleDate) : Prop :=
  (∀ m, minAge = some m → ∃ a, calculateAge today dob = some a ∧ m ≤ a) ∧
  (∀ m, maxAge = some m → ∃ a, calculateAge today dob = some a ∧ a ≤ m)

lemma minAgeCheck_iff (today : SimpleDate) (m : Int) (p : PatientL) :
    minAgeCheck today m p = true ↔
      ∃ a, calculateAge today p.dateOfBirth = some a ∧ m ≤ a := by
  cases h : calculateAge today p.dateOfBirth <;> simp [minAgeCheck, h]

lemma maxAgeCheck_iff (today : SimpleDate) (m : Int) (p : PatientL) :
    maxAgeCheck today m p = true ↔
      ∃ a, calculateAge today p.dateOfBirth = some a ∧ a ≤ m := by
  cases h : calculateAge today p.dateOfBirth <;> simp [maxAgeCheck, h]

/-- C3: with no search/gender filter active, the filtered patient list
contains exactly those input patients whose computed age (as of
`today`) satisfies every age bound that is set — membership in the
output is equivalent to membership in the input plus the inclusive
age-range condition. -/
theorem filterPatients_age_exact (today : SimpleDate)
    (mn mx : Option Int) (ps : List PatientL) (p : PatientL) :
    p ∈ filterPatients (lit "") (lit "all") mn mx today ps ↔
      p ∈ ps ∧ withinAge today mn mx p.dateOfBirth := by
  have hsearch : (jsTrim (lit "")).isEmpty = true := rfl
  cases mn <;> cases mx
  all_goals
    simp [filterPatients, hsearch, withinAge, List.mem_filter,
      minAgeCheck_iff, maxAgeCheck_iff, and_assoc]
  all_goals try tauto

/-- A concrete "today" for witnesses. -/
def dDemo : SimpleDate := ⟨2026, 9, 12⟩

/-- A concrete patient born 1990-05-20, assigned to doctor `drjones`. -/
def pDemo : PatientL :=
  { id := lit "p-0001"
    firstName := lit "Ana"
    lastName := lit "Smith"
    doctor := lit "drjones"
    dateOfBirth := some ⟨1990, 4, 20⟩
    gender := some (lit "Female") }

/-- Witness for C3: the characterisation applied to a concrete patient,
date and age range. -/
theorem filterPatients_age_exact_witness :
    pDemo ∈ filterPatients (lit "") (lit "all") (some 18) (some 65)
        dDemo [pDemo] ↔
      pDemo ∈ [pDemo] ∧ withinAge dDemo (some 18) (some 65)
        pDemo.dateOfBirth :=
  filterPatients_age_exact dDemo (some 18) (some 65) [pDemo] pDemo

/-! ## Role resolution (AuthContext.tsx lines 26-64) -/

/-- A `Doctor` record as read by `determineRole` (username and email
are required fields in the schema). -/
structure DoctorRec where
  username : Str
  email : Str
deriving DecidableEq

/-- A `Patient` record as read by `determineRole` and the patient
listing/transfer logic; `email` and `cognitoId` are optional schema
fields. -/
structure PatientRec where
  id : Str
  firstName : Str
  lastName : Str
  doctor : Str
  email : Option Str
  cognitoId : Option Str
deriving DecidableEq

/-- The three roles of AuthContext.tsx. -/
inductive Role where
  | doctor
  | patient
  | unknown
deriving DecidableEq

/-- The managed data API's `list` with a field-equality filter,
modelled from the spec (§6): create/get/list/update/delete per record
kind with field-level filters over an in-memory record list. -/
def listWhere {α : Type} (records : List α) (cond : α → Bool) : List α :=
  records.filter cond

/-- The `if (email) { ... Doctor email check ... }` step of
AuthContext.tsx lines 36-40. -/
def doctorEmailMatch (doctors : List DoctorRec) : Option Str → Bool
  | some e => 0 < (listWhere doctors fun d => d.email = e).length
  | none => false

/-- The `if (email) { ... Patient email check ... }` step of
AuthContext.tsx lines 53-57. -/
def patientEmailMatch (patients : List PatientRec) : Option Str → Bool
  | some e => 0 < (listWhere patients fun p => p.email = some e).length
  | none => false

/-- `determineRole` of AuthContext.tsx lines 26-64: Doctor by
username, then Doctor by email, then Patient by cognitoId, then
Patient by email, first match wins, else `unknown`. -/
def determineRole (doctors : List DoctorRec) (patients : List PatientRec)
    (username : Str) (email : Option Str) : Role :=
  if 0 < (listWhere doctors fun d => d.username = username).length then
    .doctor
  else if doctorEmailMatch doctors email then
    .doctor
  else if 0 < (listWhere patients fun p => p.cognitoId = some username).length then
    .patient
  else if patientEmailMatch patients email then
    .patient
  else
    .unknown

/-- The claim's "identity matches a Doctor record by username or
email". -/
def doctorMatches (d : DoctorRec) (username : Str) (email : Option Str) :
    Prop :=
  d.username = username ∨ email = some d.email

/-- The claim's "identity matches a Patient record by linked identity
(cognitoId) or email". -/
def patientMatches (p : PatientRec) (username : Str) (email : Option Str) :
    Prop :=
  p.cognitoId = some username ∨ (∃ e, email = some e ∧ p.email = some e)

lemma listWhere_length_pos_iff {α : Type} (l : List α) (f : α → Bool) :
    0 < (listWhere l f).length ↔ ∃ x ∈ l, f x = true := by
  rw [listWhere, List.length_pos]
  constructor
  · intro h
    obtain ⟨x, hx⟩ := List.exists_mem_of_ne_nil _ h
    rw [List.mem_filter] at hx
    exact ⟨x, hx.1, hx.2⟩
  · rintro ⟨x, hxl, hxf⟩
    exact List.ne_nil_of_mem (List.mem_filter.mpr ⟨hxl, hxf⟩)

lemma doctorCond_iff (ds : List DoctorRec) (username : Str)
    (email : Option Str) :
    ((0 < (listWhere ds fun d => d.username = username).length) ∨
        doctorEmailMatch ds email = true) ↔
      ∃ d ∈ ds, doctorMatches d username email := by
  rw [listWhere_length_pos_iff]
  cases email with
  | none =>
    simp [doctorEmailMatch, doctorMatches]
  | some e =>
    rw [doctorEmailMatch]
    simp only [decide_eq_true_eq]
    rw [listWhere_length_pos_iff]
    constructor
    · rintro (⟨d, hd, hf⟩ | ⟨d, hd, hf⟩)
      · exact ⟨d, hd, Or.inl (by simpa using hf)⟩
      · refine ⟨d, hd, Or.inr ?_⟩
        simp only [decide_eq_true_eq] at hf
        rw [hf]
    · rintro ⟨d, hd, hm | hm⟩
      · exact Or.inl ⟨d, hd, by simpa using hm⟩
      · refine Or.inr ⟨d, hd, ?_⟩
        simp only [Option.some.injEq] at hm
        simp [hm]

lemma patientCond_iff (ps : List PatientRec) (username : Str)
    (email : Option Str) :
    ((0 < (listWhere ps fun p => p.cognitoId = some username).length) ∨
        patientEmailMatch ps email = true) ↔
      ∃ p ∈ ps, patientMatches p username email := by
  rw [listWhere_length_pos_iff]
  cases email with
  | none =>
    simp [patientEmailMatch, patientMatches]
  | some e =>
    rw [patientEmailMatch]
    simp only [decide_eq_true_eq]
    rw [listWhere_length_pos_iff]
    constructor
    · rintro (⟨p, hp, hf⟩ | ⟨p, hp, hf⟩)
      · exact ⟨p, hp, Or.inl (by simpa using hf)⟩
      · exact ⟨p, hp, Or.inr ⟨e, rfl, by simpa using hf⟩⟩
    · rintro ⟨p, hp, hm | ⟨e2, he2, hm⟩⟩
      · exact Or.inl ⟨p, hp, by simpa using hm⟩
      · refine Or.inr ⟨p, hp, ?_⟩
        simp only [Option.some.injEq] at he2
        simp [← he2, hm]

/-- C4: `determineRole` returns `doctor` exactly when the identity
matches some Doctor record by username or email; `patient` exactly when
it matches no Doctor record but matches some Patient record by
cognitoId or email; and `unknown` exactly when it matches neither —
the Doctor checks run first, so an identity matching both tables
resolves to `doctor`. -/
theorem determineRole_characterisation (ds : List DoctorRec)
    (ps : List PatientRec) (username : Str) (email : Option Str) :
    (determineRole ds ps username email = .doctor ↔
      ∃ d ∈ ds, doctorMatches d username email) ∧
    (determineRole ds ps username email = .patient ↔
      (¬ ∃ d ∈ ds, doctorMatches d username email) ∧
        ∃ p ∈ ps, patientMatches p username email) ∧
    (determineRole ds ps username email = .unknown ↔
      (¬ ∃ d ∈ ds, doctorMatches d username email) ∧
        ¬ ∃ p ∈ ps, patientMatches p username email) := by
  rw [← doctorCond_iff ds username email, ← patientCond_iff ps username email]
  unfold determineRole
  by_cases c1 : 0 < (listWhere ds fun d => d.username = username).length <;>
    by_cases c2 : doctorEmailMatch ds email = true <;>
    by_cases c3 :
      0 < (listWhere ps fun p => p.cognitoId = some username).length <;>
    by_cases c4 : patientEmailMatch ps email = true <;>
    simp [c1, c2, c3, c4]

/-- A concrete doctor record for witnesses. -/
def docDemo : DoctorRec :=
  { username := lit "drjones", email := lit "drjones@daignostics.info" }

/-- A concrete patient record (with linked account identity) for
witnesses. -/
def pAuthDemo : PatientRec :=
  { id := lit "p-0002"
    firstName := lit "Bo"
    lastName := lit "Lee"
    doctor := lit "drjones"
    email := some (lit "pat@x.org")
    cognitoId := some (lit "cog-77") }

/-- Witness for C4: the characterisation applied to concrete tables
where the identity matches only the Patient table. -/
theorem determineRole_characterisation_witness :
    (determineRole [docDemo] [pAuthDemo] (lit "cog-77")
        (some (lit "pat@x.org")) = .doctor ↔
      ∃ d ∈ [docDemo], doctorMatches d (lit "cog-77")
        (some (lit "pat@x.org"))) ∧
    (determineRole [docDemo] [pAuthDemo] (lit "cog-77")
        (some (lit "pat@x.org")) = .patient ↔
      (¬ ∃ d ∈ [docDemo], doctorMatches d (lit "cog-77")
          (some (lit "pat@x.org"))) ∧
        ∃ p ∈ [pAuthDemo], patientMatches p (lit "cog-77")
          (some (lit "pat@x.org"))) ∧
    (determineRole [docDemo] [pAuthDemo] (lit "cog-77")
        (some (lit "pat@x.org")) = .unknown ↔
      (¬ ∃ d ∈ [docDemo], doctorMatches d (lit "cog-77")
          (some (lit "pat@x.org"))) ∧
        ¬ ∃ p ∈ [pAuthDemo], patientMatches p (lit "cog-77")
          (some (lit "pat@x.org"))) :=
  determineRole_characterisation [docDemo] [pAuthDemo] (lit "cog-77")
    (some (lit "pat@x.org"))

/-! ## Patient transfer (src/unnamed/part_000 lines 141-164 and
PatientList.tsx lines 54-73) -/

/-- Modelled from the spec: the managed data API's `update` operation
(spec §6) applied as in `handleTransferPatient`
(`Patient.update({ id, doctor: transferDoctorId })`): the record with
the given id has its doctor field replaced, everything else is
unchanged. -/
def updatePatientDoctor (store : List PatientRec) (id newDoctor : Str) :
    List PatientRec :=
  store.map fun p => if p.id = id then { p with doctor := newDoctor } else p

/-- The `fetchPatients` query of PatientList.tsx lines 61-64:
`Patient.list({ filter: { doctor: { eq: username } } })`. -/
def listPatientsOfDoctor (store : List PatientRec) (username : Str) :
    List PatientRec :=
  listWhere store fun p => p.doctor = username

/-- C5: after the transfer updates a patient's doctor field from A to a
distinct doctor B, listing patients filtered by doctor A no longer
contains that patient (no record with its id), and listing patients
filtered by doctor B does contain it. -/
theorem transferPatient_moves_patient (store : List PatientRec)
    (p : PatientRec) (a b : Str) (hmem : p ∈ store) (_howner : p.doctor = a)
    (hne : a ≠ b) :
    (∀ q ∈ listPatientsOfDoctor (updatePatientDoctor store p.id b) a,
      q.id ≠ p.id) ∧
    (∃ q ∈ listPatientsOfDoctor (updatePatientDoctor store p.id b) b,
      q.id = p.id) := by
  constructor
  · intro q hq hid
    rw [listPatientsOfDoctor, listWhere, List.mem_filter] at hq
    obtain ⟨hqmem, hqd⟩ := hq
    rw [updatePatientDoctor, List.mem_map] at hqmem
    obtain ⟨r, hr, hrq⟩ := hqmem
    by_cases hrid : r.id = p.id
    · rw [if_pos hrid] at hrq
      rw [← hrq] at hqd
      simp only [decide_eq_true_eq] at hqd
      exact hne hqd.symm
    · rw [if_neg hrid] at hrq
      rw [← hrq] at hid
      exact hrid hid
  · refine ⟨{ p with doctor := b }, ?_, rfl⟩
    rw [listPatientsOfDoctor, listWhere, List.mem_filter]
    refine ⟨?_, by simp⟩
    rw [updatePatientDoctor, List.mem_map]
    exact ⟨p, hmem, by rw [if_pos rfl]⟩

/-- Witness for C5: transferring a concrete patient from `drjones` to
`drsmith` in a one-record store. -/
theorem transferPatient_moves_patient_witness :
    (∀ q ∈ listPatientsOfDoctor
        (updatePatientDoctor [pAuthDemo] pAuthDemo.id (lit "drsmith"))
        (lit "drjones"), q.id ≠ pAuthDemo.id) ∧
    (∃ q ∈ listPatientsOfDoctor
        (updatePatientDoctor [pAuthDemo] pAuthDemo.id (lit "drsmith"))
        (lit "drsmith"), q.id = pAuthDemo.id) :=
  transferPatient_moves_patient [pAuthDemo] pAuthDemo (lit "drjones")
    (lit "drsmith") (by decide) (by decide) (by decide)

/-! ## Experiment write/read operations across the codebase (C6) -/

/-- The three persisted record kinds (spec §3). -/
inductive DataModel where
  | doctor
  | patient
  | experiment
deriving DecidableEq

/-- The managed data API operations the codebase invokes. -/
inductive DataOp where
  | create
  | get
  | list
  | update
  | delete
deriving DecidableEq

/-- Where a call site lives: application code (React components and
serverless handlers) or the development seed script. -/
inductive CodeArea where
  | app
  | script
deriving DecidableEq

/-- One `client.models.<Model>.<op>` call site in the repository. -/
structure CallSite where
  file : String
  line : Nat
  area : CodeArea
  model : DataModel
  op : DataOp
  context : String
deriving DecidableEq

/-- Every `client.models.<Model>.<op>` call site in the repository
(transcribed from the source; line numbers are within each file,
including the concatenated revisions inside some files). -/
def dataCallSites : List CallSite :=
  [⟨"src/components/CSVUpload.tsx", 78, .app, .experiment, .create, "handleFile (CSV upload)"⟩,
   ⟨"src/components/PatientList.tsx", 61, .app, .patient, .list, "fetchPatients"⟩,
   ⟨"src/components/PatientList.tsx", 167, .app, .patient, .create, "handleAddPatient"⟩,
   ⟨"src/components/PatientList.tsx", 542, .app, .patient, .list, "fetchPatients"⟩,
   ⟨"src/components/PatientList.tsx", 562, .app, .patient, .create, "handleAddPatient"⟩,
   ⟨"src/components/PatientList.tsx", 822, .app, .experiment, .get, "fetchExperiment (display)"⟩,
   ⟨"src/components/PatientList.tsx", 832, .app, .patient, .get, "fetchExperiment (display)"⟩,
   ⟨"src/components/PatientDetails.tsx", 52, .app, .patient, .get, "fetchPatientAndExperiments"⟩,
   ⟨"src/components/PatientDetails.tsx", 61, .app, .experiment, .list, "fetchPatientAndExperiments (display)"⟩,
   ⟨"src/components/Header.tsx", 48, .app, .doctor, .list, "fetchDoctorDetails"⟩,
   ⟨"src/components/Header.tsx", 108, .app, .doctor, .update, "profile edit"⟩,
   ⟨"src/components/PatientDashboard.tsx", 23, .app, .experiment, .list, "patient dashboard (display)"⟩,
   ⟨"src/components/ExperimentDetails.tsx", 101, .app, .experiment, .get, "fetchExperiment (display)"⟩,
   ⟨"src/components/ExperimentDetails.tsx", 110, .app, .patient, .get, "fetchExperiment (display)"⟩,
   ⟨"src/AuthContext.tsx", 31, .app, .doctor, .list, "determineRole"⟩,
   ⟨"src/AuthContext.tsx", 37, .app, .doctor, .list, "determineRole"⟩,
   ⟨"src/AuthContext.tsx", 48, .app, .patient, .list, "determineRole"⟩,
   ⟨"src/AuthContext.tsx", 54, .app, .patient, .list, "determineRole"⟩,
   ⟨"scripts/seed.ts", 99, .script, .experiment, .list, "deleteAllData"⟩,
   ⟨"scripts/seed.ts", 101, .script, .experiment, .delete, "deleteAllData"⟩,
   ⟨"scripts/seed.ts", 110, .script, .patient, .list, "deleteAllData"⟩,
   ⟨"scripts/seed.ts", 112, .script, .patient, .delete, "deleteAllData"⟩,
   ⟨"scripts/seed.ts", 121, .script, .doctor, .list, "deleteAllData"⟩,
   ⟨"scripts/seed.ts", 123, .script, .doctor, .delete, "deleteAllData"⟩,
   ⟨"scripts/seed.ts", 143, .script, .doctor, .create, "seeding"⟩,
   ⟨"scripts/seed.ts", 171, .script, .patient, .create, "seeding"⟩,
   ⟨"scripts/seed.ts", 189, .script, .patient, .list, "seeding"⟩,
   ⟨"scripts/seed.ts", 223, .script, .experiment, .create, "seeding"⟩,
   ⟨"scripts/seed.ts", 409, .script, .experiment, .list, "cleanUpDoctorData"⟩,
   ⟨"scripts/seed.ts", 411, .script, .experiment, .delete, "cleanUpDoctorData"⟩,
   ⟨"scripts/seed.ts", 420, .script, .patient, .list, "cleanUpDoctorData"⟩,
   ⟨"scripts/seed.ts", 422, .script, .patient, .delete, "cleanUpDoctorData"⟩,
   ⟨"scripts/seed.ts", 435, .script, .doctor, .delete, "cleanUpDoctorData"⟩,
   ⟨"scripts/seed.ts", 517, .script, .doctor, .create, "seeding"⟩,
   ⟨"scripts/seed.ts", 566, .script, .patient, .create, "seeding"⟩,
   ⟨"scripts/seed.ts", 575, .script, .experiment, .create, "seeding"⟩,
   ⟨"unnamed/part_003", 52, .app, .experiment, .get, "fetchExperiment (display)"⟩,
   ⟨"unnamed/part_003", 62, .app, .patient, .get, "fetchExperiment (display)"⟩,
   ⟨"unnamed/part_000", 69, .app, .patient, .get, "fetchPatientAndExperiments"⟩,
   ⟨"unnamed/part_000", 78, .app, .experiment, .list, "fetchPatientAndExperiments (display)"⟩,
   ⟨"unnamed/part_000", 107, .app, .patient, .update, "handleEditPatient (patient edit)"⟩,
   ⟨"unnamed/part_000", 130, .app, .doctor, .list, "handleTransferClick"⟩,
   ⟨"unnamed/part_000", 151, .app, .patient, .update, "handleTransferPatient (patient transfer)"⟩,
   ⟨"unnamed/part_001", 22, .app, .doctor, .list, "login handleSubmit"⟩,
   ⟨"unnamed/part_002", 172, .app, .experiment, .create, "handleFile (CSV upload)"⟩]

/-- A call site creates an Experiment as part of a CSV-upload
`handleFile` handler. -/
def isCsvUploadExperimentCreate (s : CallSite) : Prop :=
  s.model = .experiment ∧ s.op = .create ∧
    s.context = "handleFile (CSV upload)"

/-- C6 (amended): in the application code (the React components and
serverless functions, i.e. every call site outside the development
seed script), the only operation that writes an Experiment is the
create performed at CSV upload, and no application operation updates
or deletes an Experiment — every other Experiment access is a read
(`get` or `list`).  The claim as stated over the whole codebase fails
only because the development seed script also creates and deletes
Experiment records. -/
theorem experiment_immutable_in_app (s : CallSite)
    (hs : s ∈ dataCallSites) (harea : s.area = .app)
    (hmodel : s.model = .experiment) :
    isCsvUploadExperimentCreate s ∨ s.op = .get ∨ s.op = .list := by
  fin_cases hs <;> simp_all [isCsvUploadExperimentCreate]

/-- Witness for C6: the CSV-upload create site itself. -/
theorem experiment_immutable_in_app_witness :
    isCsvUploadExperimentCreate
        ⟨"src/components/CSVUpload.tsx", 78, .app, .experiment, .create,
          "handleFile (CSV upload)"⟩ ∨
      CallSite.op ⟨"src/components/CSVUpload.tsx", 78, .app, .experiment,
        .create, "handleFile (CSV upload)"⟩ = .get ∨
      CallSite.op ⟨"src/components/CSVUpload.tsx", 78, .app, .experiment,
        .create, "handleFile (CSV upload)"⟩ = .list :=
  experiment_immutable_in_app
    ⟨"src/components/CSVUpload.tsx", 78, .app, .experiment, .create,
      "handleFile (CSV upload)"⟩
    (by decide) (by decide) (by decide)

/-- C6 counterexample: the codebase does contain operations that
delete an Experiment and a create outside CSV upload — the seed
script's `deleteAllData`/`cleanUpDoctorData` delete Experiment
records and its seeding creates them — refuting the claim that the
CSV-upload create is the only Experiment write and that no operation
deletes an Experiment. -/
theorem experiment_deleted_by_seed_script_cex :
    (⟨"scripts/seed.ts", 101, .script, .experiment, .delete,
        "deleteAllData"⟩ : CallSite) ∈ dataCallSites ∧
    (⟨"scripts/seed.ts", 223, .script, .experiment, .create,
        "seeding"⟩ : CallSite) ∈ dataCallSites := by decide

/-! ## The predict-experiment handler
(amplify/functions/predict-experiment/handler.ts lines 5-43) -/

/-- The handler's argument record; a falsy field (missing or empty
string) is modelled as `none`. -/
structure CreateArgs where
  email : Option String
  firstName : Option String
  lastName : Option String
deriving DecidableEq

/-- The AppSync/direct invocation event (handler.ts lines 12-22):
arguments either nested under `arguments` or directly on the event. -/
structure CognitoEvent where
  arguments : Option CreateArgs
  email : Option String
  firstName : Option String
  lastName : Option String
deriving DecidableEq

/-- The handler's response shape (handler.ts lines 24-30). -/
structure CreatePatientResponse where
  success : Bool
  username : Option String
  password : Option String
  cognitoSub : Option String
  error : Option String
deriving DecidableEq

/-- `const args = event.arguments || event` (handler.ts line 60). -/
def eventArgs (event : CognitoEvent) : CreateArgs :=
  match event.arguments with
  | some a => a
  | none => ⟨event.email, event.firstName, event.lastName⟩

/-- The create-patient-cognito `handler` (handler.ts lines 56-125) as
explicit state passing over the Cognito user pool, modelled as the
list of created usernames.  The outcomes of the two Cognito calls are
parameters: `createOutcome` is `AdminCreateUser` (an `.ok` carries the
extracted `sub` attribute and adds the user to the pool),
`setPasswordOutcome` is `AdminSetUserPassword`.  A thrown error lands
in the single catch block, which returns `success: false` with the
error message — it performs no deletion or other reconciliation. -/
def createPatientHandler (userPoolId : Option String)
    (createOutcome : Except String (Option String))
    (setPasswordOutcome : Except String Unit) (password : String)
    (event : CognitoEvent) (userPool : List String) :
    CreatePatientResponse × List String :=
  match (eventArgs event).email, (eventArgs event).firstName,
      (eventArgs event).lastName with
  | some email, some _, some _ =>
    match userPoolId with
    | none =>
      ({ success := false, username := none, password := none,
         cognitoSub := none,
         error := some "USER_POOL_ID environment variable not configured" },
       userPool)
    | some _ =>
      match createOutcome with
      | .error e =>
        ({ success := false, username := none, password := none,
           cognitoSub := none, error := some e }, userPool)
      | .ok sub =>
        let poolAfterCreate := userPool ++ [email]
        match setPasswordOutcome with
        | .error e =>
          ({ success := false, username := none, password := none,
             cognitoSub := none, error := some e }, poolAfterCreate)
        | .ok _ =>
          ({ success := true, username := some email,
             password := some password, cognitoSub := sub,
             error := none }, poolAfterCreate)
  | _, _, _ =>
    ({ success := false, username := none, password := none,
       cognitoSub := none,
       error := some "Missing required fields: email, firstName, lastName" },
     userPool)

/-- C8: when `AdminCreateUser` succeeds but `AdminSetUserPassword`
fails, the handler returns `success: false` with the error message,
and the user created by the first step persists in the pool — the
handler performs no deletion or reconciliation of the partial state. -/
theorem createPatient_no_partial_failure_recovery (poolId : String)
    (sub : Option String) (e : String) (password : String)
    (event : CognitoEvent) (userPool : List String)
    (email firstName lastName : String)
    (hargs : eventArgs event = ⟨some email, some firstName, some lastName⟩) :
    (createPatientHandler (some poolId) (.ok sub) (.error e) password
        event userPool).1.success = false ∧
    (createPatientHandler (some poolId) (.ok sub) (.error e) password
        event userPool).1.error = some e ∧
    (createPatientHandler (some poolId) (.ok sub) (.error e) password
        event userPool).2 = userPool ++ [email] ∧
    email ∈ (createPatientHandler (some poolId) (.ok sub) (.error e)
        password event userPool).2 := by
  simp [createPatientHandler, hargs]

/-- A concrete AppSync event for witnesses. -/
def eventDemo : CognitoEvent :=
  { arguments := some ⟨some "pat@x.org", some "Bo", some "Lee"⟩
    email := none, firstName := none, lastName := none }

/-- Witness for C8: concrete pool, outcomes and event. -/
theorem createPatient_no_partial_failure_recovery_witness :
    (createPatientHandler (some "pool-1") (.ok (some "sub-9"))
        (.error "SetPassword failed") "Pw1!aaaaaaaa" eventDemo []).1.success
        = false ∧
    (createPatientHandler (some "pool-1") (.ok (some "sub-9"))
        (.error "SetPassword failed") "Pw1!aaaaaaaa" eventDemo []).1.error
        = some "SetPassword failed" ∧
    (createPatientHandler (some "pool-1") (.ok (some "sub-9"))
        (.error "SetPassword failed") "Pw1!aaaaaaaa" eventDemo []).2
        = [] ++ ["pat@x.org"] ∧
    "pat@x.org" ∈ (createPatientHandler (some "pool-1") (.ok (some "sub-9"))
        (.error "SetPassword failed") "Pw1!aaaaaaaa" eventDemo []).2 :=
  createPatient_no_partial_failure_recovery "pool-1" (some "sub-9")
    "SetPassword failed" "Pw1!aaaaaaaa" eventDemo [] "pat@x.org" "Bo" "Lee"
    rfl

/-! ## Password generation (handler.ts lines 33-54) -/

/-- `'abcdefghijklmnopqrstuvwxyz'`. -/
def lowercaseChars : Str := lit "abcdefghijklmnopqrstuvwxyz"

/-- `'ABCDEFGHIJKLMNOPQRSTUVWXYZ'`. -/
def uppercaseChars : Str := lit "ABCDEFGHIJKLMNOPQRSTUVWXYZ"

/-- `'0123456789'`. -/
def digitChars : Str := lit "0123456789"

/-- `'!@#$%^&*'`. -/
def specialChars : Str := lit "!@#$%^&*"

/-- `lowercase + uppercase + numbers + special` (handler.ts line 47). -/
def allChars : Str := lowercaseChars ++ uppercaseChars ++ digitChars ++ specialChars

/-- The 12 characters assembled by `generatePassword` before the final
shuffle: one uppercase, one lowercase, one digit, one special
character, then eight draws from `allChars`.  The indices model
`Math.floor(Math.random() * len)`, which always lies in `[0, len)`. -/
def passwordBase (i1 : Fin 26) (i2 : Fin 26) (i3 : Fin 10) (i4 : Fin 8)
    (fill : Fin 8 → Fin 70) : List Char :=
  [uppercaseChars.getD i1.val 'A', lowercaseChars.getD i2.val 'a',
   digitChars.getD i3.val '0', specialChars.getD i4.val '!'] ++
  (List.finRange 8).map fun j => allChars.getD (fill j).val 'a'

/-- `generatePassword` (handler.ts lines 33-54): the concluding
`.split('').sort(() => Math.random() - 0.5).join('')` rearranges the
twelve characters without adding or removing any; the arrangement the
random comparator produces is modelled as the permutation `σ`. -/
def generatePassword (i1 : Fin 26) (i2 : Fin 26) (i3 : Fin 10) (i4 : Fin 8)
    (fill : Fin 8 → Fin 70) (σ : Equiv.Perm (Fin 12)) : List Char :=
  (List.finRange 12).map fun j =>
    (passwordBase i1 i2 i3 i4 fill).getD (σ j).val ' '

lemma getD_mem_of_lt {α : Type} (l : List α) (n : Nat) (d : α)
    (h : n < l.length) : l.getD n d ∈ l := by
  rw [List.getD_eq_getElem?_getD, List.getElem?_eq_getElem h]
  exact List.getElem_mem h

lemma passwordBase_length (i1 : Fin 26) (i2 : Fin 26) (i3 : Fin 10)
    (i4 : Fin 8) (fill : Fin 8 → Fin 70) :
    (passwordBase i1 i2 i3 i4 fill).length = 12 := by
  simp [passwordBase]

/-- C9: for every sequence of random draws and every arrangement the
final shuffle produces, `generatePassword` returns exactly 12
characters, among them at least one uppercase letter, one lowercase
letter, one digit and one special character. -/
theorem generatePassword_length_and_classes (i1 : Fin 26) (i2 : Fin 26)
    (i3 : Fin 10) (i4 : Fin 8) (fill : Fin 8 → Fin 70)
    (σ : Equiv.Perm (Fin 12)) :
    (generatePassword i1 i2 i3 i4 fill σ).length = 12 ∧
    (∃ c ∈ generatePassword i1 i2 i3 i4 fill σ, c ∈ uppercaseChars) ∧
    (∃ c ∈ generatePassword i1 i2 i3 i4 fill σ, c ∈ lowercaseChars) ∧
    (∃ c ∈ generatePassword i1 i2 i3 i4 fill σ, c ∈ digitChars) ∧
    (∃ c ∈ generatePassword i1 i2 i3 i4 fill σ, c ∈ specialChars) := by
  have hmem : ∀ j : Fin 12,
      (passwordBase i1 i2 i3 i4 fill).getD (σ (σ.symm j)).val ' ' ∈
        generatePassword i1 i2 i3 i4 fill σ := by
    intro j
    rw [generatePassword]
    exact List.mem_map.mpr ⟨σ.symm j, List.mem_finRange _, rfl⟩
  refine ⟨by simp [generatePassword], ?_, ?_, ?_, ?_⟩
  · refine ⟨(passwordBase i1 i2 i3 i4 fill).getD (σ (σ.symm 0)).val ' ',
      hmem 0, ?_⟩
    rw [Equiv.apply_symm_apply]
    exact getD_mem_of_lt uppercaseChars i1.val 'A' i1.isLt
  · refine ⟨(passwordBase i1 i2 i3 i4 fill).getD (σ (σ.symm 1)).val ' ',
      hmem 1, ?_⟩
    rw [Equiv.apply_symm_apply]
    exact getD_mem_of_lt lowercaseChars i2.val 'a' i2.isLt
  · refine ⟨(passwordBase i1 i2 i3 i4 fill).getD (σ (σ.symm 2)).val ' ',
      hmem 2, ?_⟩
    rw [Equiv.apply_symm_apply]
    exact getD_mem_of_lt digitChars i3.val '0' i3.isLt
  · refine ⟨(passwordBase i1 i2 i3 i4 fill).getD (σ (σ.symm 3)).val ' ',
      hmem 3, ?_⟩
    rw [Equiv.apply_symm_apply]
    exact getD_mem_of_lt specialChars i4.val '!' i4.isLt

/-- Witness for C9: concrete random draws and the identity
arrangement. -/
theorem generatePassword_length_and_classes_witness :
    (generatePassword 0 0 0 0 (fun _ => 0) (Equiv.refl (Fin 12))).length
      = 12 ∧
    (∃ c ∈ generatePassword 0 0 0 0 (fun _ => 0) (Equiv.refl (Fin 12)),
      c ∈ uppercaseChars) ∧
    (∃ c ∈ generatePassword 0 0 0 0 (fun _ => 0) (Equiv.refl (Fin 12)),
      c ∈ lowercaseChars) ∧
    (∃ c ∈ generatePassword 0 0 0 0 (fun _ => 0) (Equiv.refl (Fin 12)),
      c ∈ digitChars) ∧
    (∃ c ∈ generatePassword 0 0 0 0 (fun _ => 0) (Equiv.refl (Fin 12)),
      c ∈ specialChars) :=
  generatePassword_length_and_classes 0 0 0 0 (fun _ => 0)
    (Equiv.refl (Fin 12))

/-! ## Sanitisation of ML numeric results at experiment creation
(src/unnamed/part_002 lines 145-163) -/

/-- JavaScript numbers: finite values, `NaN`, and the infinities. -/
inductive JSNum where
  | finite (q : ℚ)
  | nan
  | posInf
  | negInf
deriving DecidableEq

/-- Runtime JavaScript values an untrusted ML-result field can hold. -/
inductive JSVal where
  | num (n : JSNum)
  | str (s : String)
  | jsbool (b : Bool)
  | null
  | undef
deriving DecidableEq

/-- `sanitizeNumber` (part_002 lines 148-152): non-numbers become
`null`, non-finite numbers (`NaN`, `±Infinity`) become `null`, finite
numbers pass through. -/
def sanitizeNumber : JSVal → JSVal
  | .num (.finite q) => .num (.finite q)
  | .num .nan => .null
  | .num .posInf => .null
  | .num .negInf => .null
  | .str _ => .null
  | .jsbool _ => .null
  | .null => .null
  | .undef => .null

/-- JavaScript truthiness of a runtime value (`NaN` is falsy, the
infinities are truthy). -/
def jsValTruthy : JSVal → Bool
  | .num (.finite q) => q ≠ 0
  | .num .nan => false
  | .num .posInf => true
  | .num .negInf => true
  | .str s => !s.isEmpty
  | .jsbool b => b
  | .null => false
  | .undef => false

/-- JavaScript `a || b`. -/
def jsOr (a b : JSVal) : JSVal := if jsValTruthy a then a else b

/-- The ML-result fields read when building the experiment record;
a missing field is `undef`. -/
structure MLResultVals where
  consensus_prediction : JSVal
  consensus_confidence : JSVal
  models_used : JSVal
deriving DecidableEq

/-- The three numeric fields of the experiment record created by
`handleFile` (part_002 lines 154-163). -/
structure ExperimentNumericFields where
  consensusPrediction : JSVal
  consensusConfidence : JSVal
  modelsUsed : JSVal
deriving DecidableEq

/-- The assignments of part_002 lines 158-162:
`sanitizeNumber(...)` for the two consensus fields and
`sanitizeNumber(...) || 0` for `modelsUsed`. -/
def mkExperimentNumericFields (ml : MLResultVals) :
    ExperimentNumericFields :=
  { consensusPrediction := sanitizeNumber ml.consensus_prediction
    consensusConfidence := sanitizeNumber ml.consensus_confidence
    modelsUsed := jsOr (sanitizeNumber ml.models_used) (.num (.finite 0)) }

/-- "null or a finite number (never NaN or Infinity)". -/
def isNullOrFiniteNum : JSVal → Prop
  | .null => True
  | .num (.finite _) => True
  | _ => False

/-- "a finite number". -/
def isFiniteNum : JSVal → Prop
  | .num (.finite _) => True
  | _ => False

/-- "missing, non-numeric, or non-finite". -/
def notFiniteNumber (v : JSVal) : Prop := ∀ q, v ≠ .num (.finite q)

lemma sanitizeNumber_nullOrFinite (v : JSVal) :
    isNullOrFiniteNum (sanitizeNumber v) := by
  cases v with
  | num n => cases n <;> trivial
  | str s => trivial
  | jsbool b => trivial
  | null => trivial
  | undef => trivial

lemma sanitizeNumber_of_notFinite (v : JSVal) (h : notFiniteNumber v) :
    sanitizeNumber v = .null := by
  cases v with
  | num n =>
    cases n with
    | finite q => exact absurd rfl (h q)
    | nan => rfl
    | posInf => rfl
    | negInf => rfl
  | str s => rfl
  | jsbool b => rfl
  | null => rfl
  | undef => rfl

/-- C10: every experiment record built by the spectral CSV upload has
`consensusPrediction` and `consensusConfidence` each null or a finite
number (never NaN or Infinity), and `modelsUsed` always a finite
number, equal to 0 whenever the ML result's `models_used` is missing,
non-numeric, or non-finite. -/
theorem experimentNumericFields_sanitised (ml : MLResultVals) :
    isNullOrFiniteNum (mkExperimentNumericFields ml).consensusPrediction ∧
    isNullOrFiniteNum (mkExperimentNumericFields ml).consensusConfidence ∧
    isFiniteNum (mkExperimentNumericFields ml).modelsUsed ∧
    (notFiniteNumber ml.models_used →
      (mkExperimentNumericFields ml).modelsUsed = .num (.finite 0)) := by
  refine ⟨sanitizeNumber_nullOrFinite _, sanitizeNumber_nullOrFinite _,
    ?_, ?_⟩
  · have h := sanitizeNumber_nullOrFinite ml.models_used
    rw [mkExperimentNumericFields]
    rcases hs : sanitizeNumber ml.models_used with n | s | b | _ | _ <;>
      rw [hs] at h
    · cases n with
      | finite q =>
        by_cases hq : q = 0
        · subst hq
          simp [jsOr, jsValTruthy, isFiniteNum]
        · simp [jsOr, jsValTruthy, hq, isFiniteNum]
      | nan => exact absurd h (by simp [isNullOrFiniteNum])
      | posInf => exact absurd h (by simp [isNullOrFiniteNum])
      | negInf => exact absurd h (by simp [isNullOrFiniteNum])
    · exact absurd h (by simp [isNullOrFiniteNum])
    · exact absurd h (by simp [isNullOrFiniteNum])
    · simp [jsOr, jsValTruthy, isFiniteNum]
    · exact absurd h (by simp [isNullOrFiniteNum])
  · intro hnf
    rw [mkExperimentNumericFields]
    simp only [sanitizeNumber_of_notFinite ml.models_used hnf]
    rfl

/-- A concrete ML result (prediction 1, confidence NaN, `models_used`
missing) for witnesses. -/
def mlDemo : MLResultVals :=
  { consensus_prediction := .num (.finite 1)
    consensus_confidence := .num .nan
    models_used := .undef }

/-- Witness for C10: a concrete ML result whose `models_used` is
missing. -/
theorem experimentNumericFields_sanitised_witness :
    isNullOrFiniteNum (mkExperimentNumericFields mlDemo).consensusPrediction ∧
    isNullOrFiniteNum (mkExperimentNumericFields mlDemo).consensusConfidence ∧
    isFiniteNum (mkExperimentNumericFields mlDemo).modelsUsed ∧
    (notFiniteNumber mlDemo.models_used →
      (mkExperimentNumericFields mlDemo).modelsUsed = .num (.finite 0)) :=
  experimentNumericFields_sanitised mlDemo

end Daignostics
